import Mathlib

/-!
# Service health check agent: result store, probe strategies, runner

A shallow embedding of `config.go`, `checker.go`, `kubernetes.go` and `api.go`.

Conventions of the embedding:

* a Go `string` is a Lean `String` (the model covers the Go strings that are
  valid UTF-8, on which Go's `==` and Lean's equality agree);
* `int`, `time.Duration` (int64 nanoseconds) and `time.Time` (an instant, in
  nanoseconds) are `Int`; the code only compares and copies them;
* what an attempt observes from the outside world (clock readings, the outcome
  of the network call) is an explicit argument;
* the read/write mutex makes every store operation atomic, so an operation is a
  function on the state and concurrency is interleaving of such steps;
* a run-time panic is an explicit outcome: `none` for a handler, the flag
  `panicked` for the process.
-/

namespace HealthCheck

/-! ## Go maps with string keys -/

/-- A Go `map[string]V`: finitely many entries, at most one per key. The order
of `entries` stands for one possible iteration order. -/
structure GoMap (V : Type) where
  entries : List (String × V)
  nodup : (entries.map Prod.fst).Nodup

namespace GoMap

variable {V : Type}

/-- The result of `make(map[string]V)`. -/
def empty : GoMap V := ⟨[], List.nodup_nil⟩

/-- Entries of a raw list that are not stored under `k`. -/
def eraseKey (k : String) (l : List (String × V)) : List (String × V) :=
  l.filter (fun e => !decide (e.1 = k))

/-- First value stored under `k` in a raw list. -/
def find (k : String) : List (String × V) → Option V
  | [] => none
  | e :: l => if e.1 = k then some e.2 else find k l

/-- The two-result index expression `v, ok := m[k]`, with `none` for `ok = false`. -/
def get (m : GoMap V) (k : String) : Option V := find k m.entries

/-- The assignment `m[k] = v`: replaces the entry under `k` or adds one. -/
def set (m : GoMap V) (k : String) (v : V) : GoMap V :=
  ⟨(k, v) :: eraseKey k m.entries,
   by
     simp only [List.map_cons, List.nodup_cons]
     refine ⟨?_, ?_⟩
     · simp [eraseKey, List.mem_map, List.mem_filter]
     · unfold eraseKey
       exact ((List.filter_sublist m.entries).map Prod.fst).nodup m.nodup⟩

/-- The keys of the map, `len(m)` many. -/
def keys (m : GoMap V) : List String := m.entries.map Prod.fst

/-- The values visited by `for _, v := range m`. -/
def values (m : GoMap V) : List V := m.entries.map Prod.snd

end GoMap

/-! ## Data model (`config.go`, `checker.go`) -/

/-- Go `time.Duration`: a signed count of nanoseconds. -/
abbrev Duration := Int

/-- Go `time.Time`, as an instant in nanoseconds. -/
abbrev Time := Int

/-- Go `time.Second`. -/
def Second : Duration := 1000000000

/-- ServiceCheck represents a single service to be checked. -/
structure ServiceCheck where
  Name : String
  Type_ : String
  Target : String
  Interval : Duration
  Timeout : Duration
  ExpectedStatus : Int
deriving DecidableEq, Repr

/-- Config represents the overall configuration. -/
structure Config where
  Checks : List ServiceCheck
  LogLevel : String
  APIPort : Int
deriving DecidableEq, Repr

/-- CheckResult represents the result of a health check. -/
structure CheckResult where
  Name : String
  Type_ : String
  Target : String
  Status : String
  Message : String
  Timestamp : Time
  Duration : Duration
deriving DecidableEq, Repr

/-- The Go zero value of `CheckResult` (`var result CheckResult`). -/
def CheckResult.zero : CheckResult :=
  { Name := "", Type_ := "", Target := "", Status := "", Message := "",
    Timestamp := 0, Duration := 0 }

/-- The fields of `Checker` that the operations read or write: the
configuration, the `results` map and the `cancelFns` map. A cancel function is
identified by the index of the loop whose context it cancels. -/
structure Checker where
  config : Config
  results : GoMap CheckResult
  cancelFns : GoMap Nat

/-- NewChecker creates a new Checker instance. -/
def NewChecker (config : Config) : Checker :=
  { config := config, results := GoMap.empty, cancelFns := GoMap.empty }

/-- GetResults returns a copy of the current check results. -/
def Checker.GetResults (c : Checker) : List CheckResult := c.results.values

/-- GetResultByName returns the result for a specific service by name: the
stored result and `true`, or the zero value and `false`. -/
def Checker.GetResultByName (c : Checker) (name : String) : CheckResult × Bool :=
  match c.results.get name with
  | some result => (result, true)
  | none => (CheckResult.zero, false)

/-! ## Probe strategies -/

/-- Go `fmt.Sprintf("%d", n)` for an `int`. -/
def fmtInt (n : Int) : String := toString n

/-- What one HTTP attempt meets: the request cannot be built, the round trip
fails, or a response with a status code arrives. -/
inductive HTTPOutcome where
  | requestError (err : String)
  | transportError (err : String)
  | response (StatusCode : Int)
deriving DecidableEq, Repr

/-- What one TCP dial meets. -/
inductive TCPOutcome where
  | dialError (err : String)
  | connected
deriving DecidableEq, Repr

/-- What one control-plane health query meets: no client, a failed query, or
the raw response body. -/
inductive K8sOutcome where
  | clientError (err : String)
  | queryError (err : String)
  | body (healthStatus : String)
deriving DecidableEq, Repr

/-- checkHTTP performs an HTTP health check. -/
def checkHTTP (check : ServiceCheck) (startTime : Time) (o : HTTPOutcome) : CheckResult :=
  let result : CheckResult :=
    { CheckResult.zero with
      Name := check.Name, Type_ := check.Type_, Target := check.Target, Timestamp := startTime }
  match o with
  | .requestError err =>
    { result with Status := "DOWN", Message := "Failed to create request: " ++ err }
  | .transportError err =>
    { result with Status := "DOWN", Message := "Request failed: " ++ err }
  | .response StatusCode =>
    let expectedStatus := if check.ExpectedStatus = 0 then 200 else check.ExpectedStatus
    if StatusCode ≠ expectedStatus then
      { result with
        Status := "DOWN",
        Message := "Unexpected status: got " ++ fmtInt StatusCode ++ ", want "
          ++ fmtInt expectedStatus }
    else
      { result with Status := "UP", Message := "Status code: " ++ fmtInt StatusCode }

/-- checkTCP performs a TCP connection health check. -/
def checkTCP (check : ServiceCheck) (startTime : Time) (o : TCPOutcome) : CheckResult :=
  let result : CheckResult :=
    { CheckResult.zero with
      Name := check.Name, Type_ := check.Type_, Target := check.Target, Timestamp := startTime }
  match o with
  | .dialError err =>
    { result with Status := "DOWN", Message := "Failed to connect: " ++ err }
  | .connected =>
    { result with Status := "UP", Message := "Connection successful" }

/-- CheckKubernetes checks the Kubernetes API health. -/
def CheckKubernetes (check : ServiceCheck) (startTime : Time) (o : K8sOutcome) : CheckResult :=
  let result : CheckResult :=
    { CheckResult.zero with
      Name := check.Name, Type_ := check.Type_, Target := check.Target, Timestamp := startTime }
  match o with
  | .clientError err =>
    { result with Status := "DOWN", Message := "Failed to create Kubernetes client: " ++ err }
  | .queryError err =>
    { result with Status := "DOWN", Message := "Kubernetes API health check failed: " ++ err }
  | .body healthStatus =>
    if healthStatus = "ok" then
      { result with Status := "UP", Message := "Kubernetes API is healthy" }
    else
      { result with
        Status := "DOWN",
        Message := "Kubernetes API returned unexpected status: " ++ healthStatus }

/-- What one attempt of `performCheck` observes: `time.Now()` at its start,
`time.Since(startTime)` after the strategy returned, and the outcome of the
network call of either strategy. -/
structure Env where
  startTime : Time
  elapsed : Duration
  http : HTTPOutcome
  tcp : TCPOutcome
deriving DecidableEq, Repr

/-- The `result` value that `performCheck` holds when it takes the lock
(lines 111 to 129 of `checker.go`). -/
def performCheckResult (check : ServiceCheck) (env : Env) : CheckResult :=
  let startTime := env.startTime
  let result : CheckResult :=
    { CheckResult.zero with
      Name := check.Name, Type_ := check.Type_, Target := check.Target, Timestamp := startTime }
  let result :=
    if check.Type_ = "http" then checkHTTP check startTime env.http
    else if check.Type_ = "tcp" then checkTCP check startTime env.tcp
    else
      { result with
        Status := "UNKNOWN", Message := "Unsupported check type: " ++ check.Type_ }
  { result with Duration := env.elapsed }

/-- performCheck executes a single health check and stores its result under
the name of the check. -/
def Checker.performCheck (c : Checker) (check : ServiceCheck) (env : Env) : Checker :=
  { c with results := c.results.set check.Name (performCheckResult check env) }

/-! ## Configuration defaults (`config.go`, lines 41 to 57) -/

/-- The body of the loop over `config.Checks` in `LoadConfig`. -/
def setCheckDefaults (check : ServiceCheck) : ServiceCheck :=
  let check := if check.Interval ≤ 0 then { check with Interval := 60 * Second } else check
  if check.Timeout ≤ 0 then { check with Timeout := 5 * Second } else check

/-- The defaulting part of `LoadConfig`, applied to the parsed configuration. -/
def setDefaults (config : Config) : Config :=
  let config := if config.LogLevel = "" then { config with LogLevel := "info" } else config
  let config := if config.APIPort = 0 then { config with APIPort := 8080 } else config
  { config with Checks := config.Checks.map setCheckDefaults }

/-- LoadConfig loads the configuration from a YAML file. Reading the file and
the YAML decoder are arguments: `readFile` is the outcome of `os.ReadFile`,
`unmarshal` is `yaml.Unmarshal` into a `Config`. -/
def LoadConfig (readFile : Except String String)
    (unmarshal : String → Except String Config) : Except String Config :=
  match readFile with
  | .error err => .error ("error reading config file: " ++ err)
  | .ok data =>
    match unmarshal data with
    | .error err => .error ("error parsing config file: " ++ err)
    | .ok config => .ok (setDefaults config)

/-! ## Query API (`api.go`) -/

/-- The body of an HTTP response: plain text, or the JSON encoding of a result
(kept as the encoded value). -/
inductive Body where
  | text (s : String)
  | json (result : CheckResult)
deriving DecidableEq, Repr

/-- What a handler writes to its `http.ResponseWriter`. -/
structure Response where
  StatusCode : Nat
  ContentType : String
  body : Body
deriving DecidableEq, Repr

/-- Go `http.Error(w, msg, code)`. -/
def httpError (msg : String) (code : Nat) : Response :=
  { StatusCode := code, ContentType := "text/plain; charset=utf-8", body := .text (msg ++ "\n") }

/-- The outcome of a Go slice expression `s[n:]` on a string: a run-time
panic (slice bounds out of range) when `s` has fewer than `n` bytes; the rest
of the text when byte `n` starts a character or ends the string; bytes that
start inside the UTF-8 encoding of a character, which are no text and equal
to no `String`, otherwise. -/
inductive Sliced where
  | panic
  | text (s : String)
  | raw
deriving DecidableEq, Repr

/-- Drop the first `n` bytes of the UTF-8 encoding of a list of characters. -/
def dropBytes : List Char → Nat → Sliced
  | cs, 0 => .text ⟨cs⟩
  | [], _ + 1 => .panic
  | c :: cs, n + 1 =>
    if c.utf8Size ≤ n + 1 then dropBytes cs (n + 1 - c.utf8Size) else .raw

/-- Go `s[n:]`; a Go string index counts bytes. -/
def sliceFrom (s : String) (n : Nat) : Sliced := dropBytes s.data n

/-- handleResultByName returns a specific check result by name; `path` is
`r.URL.Path`, which the mux routes here when it starts with `/result/`. The
result is `none` when the handler panics at the slice of line 74 and writes no
response. A name that is no text is not empty and is the key of no entry (the
keys of the store are text), so the lookup does not find it. -/
def handleResultByName (checker : Checker) (path : String) : Option Response :=
  match sliceFrom path "/result/".utf8ByteSize with
  | .panic => none
  | .raw => some (httpError "Service not found" 404)
  | .text name =>
    if name = "" then
      some (httpError "Service name required" 400)
    else
      match checker.GetResultByName name with
      | (result, found) =>
        if !found then
          some (httpError "Service not found" 404)
        else
          some { StatusCode := 200, ContentType := "application/json", body := .json result }

/-! ## Runner (`checker.go`: `Start`, `Stop`, `runPeriodicCheck`) -/

/-- Where a `runPeriodicCheck` goroutine stands: spawned and not yet past line
91; cancel function registered, ticker not yet created; ticker created (line
93), first attempt not yet stored; waiting in the `select`; returned. -/
inductive PC where
  | start
  | registered
  | armed
  | selecting
  | returned
deriving DecidableEq, Repr

/-- One goroutine started by `Start`: its check, its position, and whether the
context it created has been cancelled (`ctx.Done()` is closed). -/
structure Loop where
  check : ServiceCheck
  pc : PC
  done : Bool
deriving DecidableEq, Repr

/-- The checker together with the goroutines of `Start`, in spawn order, and
whether a goroutine has panicked, which ends the process. -/
structure System where
  checker : Checker
  loops : List Loop
  panicked : Bool

/-- Apply `f` to the loop at index `i`, if there is one. -/
def modifyAt (f : Loop → Loop) : Nat → List Loop → List Loop
  | _, [] => []
  | 0, l :: ls => f l :: ls
  | i + 1, l :: ls => l :: modifyAt f i ls

/-- Calling the cancel function of loop `i`. -/
def cancel (loops : List Loop) (i : Nat) : List Loop :=
  modifyAt (fun l => { l with done := true }) i loops

/-- Start begins periodic health checks for all configured services: one
goroutine per entry of `config.Checks`. -/
def Checker.Start (c : Checker) : System :=
  { checker := c
    loops := c.config.Checks.map (fun check => { check := check, pc := .start, done := false })
    panicked := false }

/-- Stop cancels all running checks: it calls every function held in
`cancelFns`. -/
def System.Stop (s : System) : System :=
  { s with loops := s.checker.cancelFns.values.foldl cancel s.loops }

/-- The atomic steps of the system. `register` is lines 87 to 91 of
`runPeriodicCheck`, `newTicker` the call `time.NewTicker(check.Interval)` of
line 93, `firstCheck` the attempt of line 97, `tick` the branch
`case <-ticker.C`, `ctxDone` the branch `case <-ctx.Done()`, `stop` a call of
`Stop`. -/
inductive Action where
  | register (i : Nat)
  | newTicker (i : Nat)
  | firstCheck (i : Nat) (env : Env)
  | tick (i : Nat) (env : Env)
  | ctxDone (i : Nat)
  | stop
deriving DecidableEq, Repr

/-- One step of a running process; `none` when the action is not enabled. A
`select` with both channels ready may take either branch, so `tick` stays
enabled after a cancel. `time.NewTicker` panics for a non-positive interval. -/
def stepLive (s : System) : Action → Option System
  | .register i =>
    match s.loops[i]? with
    | some l =>
      if l.pc = .start then
        some
          { s with
            checker := { s.checker with cancelFns := s.checker.cancelFns.set l.check.Name i }
            loops := modifyAt (fun l => { l with pc := .registered }) i s.loops }
      else none
    | none => none
  | .newTicker i =>
    match s.loops[i]? with
    | some l =>
      if l.pc = .registered then
        if l.check.Interval ≤ 0 then
          some { s with panicked := true }
        else
          some { s with loops := modifyAt (fun l => { l with pc := .armed }) i s.loops }
      else none
    | none => none
  | .firstCheck i env =>
    match s.loops[i]? with
    | some l =>
      if l.pc = .armed then
        some
          { s with
            checker := s.checker.performCheck l.check env
            loops := modifyAt (fun l => { l with pc := .selecting }) i s.loops }
      else none
    | none => none
  | .tick i env =>
    match s.loops[i]? with
    | some l =>
      if l.pc = .selecting then
        some { s with checker := s.checker.performCheck l.check env }
      else none
    | none => none
  | .ctxDone i =>
    match s.loops[i]? with
    | some l =>
      if l.pc = .selecting ∧ l.done = true then
        some { s with loops := modifyAt (fun l => { l with pc := .returned }) i s.loops }
      else none
    | none => none
  | .stop => some s.Stop

/-- One step of the system: a panic of a goroutine ends the process, so no
step follows it. -/
def step (s : System) (a : Action) : Option System :=
  if s.panicked = true then none else stepLive s a

/-- Run a sequence of steps; `none` when one of them is not enabled. -/
def run (s : System) : List Action → Option System
  | [] => some s
  | a :: as =>
    match step s a with
    | some s1 => run s1 as
    | none => none

/-- The state `t` can be reached from `s` by steps of the system. -/
def Reachable (s t : System) : Prop := ∃ as, run s as = some t

/-- The state right after `main` has called `NewChecker` and `Start`. -/
def boot (config : Config) : System := (NewChecker config).Start

/-- The loop has stored the result of at least one attempt: it is past line 97. -/
def PC.attempted : PC → Bool
  | .start => false
  | .registered => false
  | .armed => false
  | .selecting => true
  | .returned => true

/-- What holds in every state reached from `boot config`: the loops are those
of the configured checks; every stored result sits under its own name and was
written by a loop of that name that has completed an attempt; such a loop has
an entry; a loop past its registration has a cancel function stored under its
name, belonging to a loop of that name. -/
structure Inv (config : Config) (s : System) : Prop where
  checks : s.loops.map Loop.check = config.Checks
  stored : ∀ (n : String) (r : CheckResult), s.checker.results.get n = some r →
    r.Name = n ∧ ∃ (i : Nat) (l : Loop), s.loops[i]? = some l ∧ l.check.Name = n
      ∧ l.pc.attempted = true ∧ r.Type_ = l.check.Type_ ∧ r.Target = l.check.Target
  attempted : ∀ (i : Nat) (l : Loop), s.loops[i]? = some l → l.pc.attempted = true →
    ∃ r, s.checker.results.get l.check.Name = some r
  registered : ∀ (i : Nat) (l : Loop), s.loops[i]? = some l → l.pc ≠ .start →
    ∃ (j : Nat) (l1 : Loop), s.checker.cancelFns.get l.check.Name = some j
      ∧ s.loops[j]? = some l1 ∧ l1.check.Name = l.check.Name

/-- Modelled from the spec: the kind string of a control-plane check (kind
ControlPlane of the data model). The source dispatches on the strings `http`
and `tcp` and names no string for the third kind; its strategy is
`CheckKubernetes` in `kubernetes.go`, whence the string. -/
def controlPlaneKind : String := "kubernetes"

/-- The kind is one of the three kinds of the data model. -/
def recognizedKind (kind : String) : Bool :=
  kind = "http" || kind = "tcp" || kind = controlPlaneKind

/-- The text `sub` occurs in `s`. -/
def Contains (s sub : String) : Prop := ∃ pre post : String, s = pre ++ sub ++ post

/-- The expected status the HTTP strategy compares with: `E`, or 200 for `E = 0`. -/
def effectiveStatus (E : Int) : Int := if E = 0 then 200 else E

/-! ## Sample inputs -/

/-- A check of a kind that `performCheck` does not dispatch on. -/
def ftpCheck : ServiceCheck :=
  { Name := "files", Type_ := "ftp", Target := "ftp.example.org:21",
    Interval := 60 * Second, Timeout := 5 * Second, ExpectedStatus := 0 }

/-- An attempt that starts at instant 1000 and lasts 7 ns, with a 200 response
for an HTTP call and a refused connection for a TCP dial. -/
def sampleEnv : Env :=
  { startTime := 1000, elapsed := 7, http := .response 200,
    tcp := .dialError "connection refused" }

/-- A control-plane check, as a configuration file would declare it. -/
def clusterCheck : ServiceCheck :=
  { Name := "cluster", Type_ := "kubernetes", Target := "",
    Interval := 60 * Second, Timeout := 5 * Second, ExpectedStatus := 0 }

/-- An HTTP check with `expectedStatus` unset. -/
def apiCheck : ServiceCheck :=
  { Name := "api", Type_ := "http", Target := "http://localhost:8080/health",
    Interval := 1 * Second, Timeout := 1 * Second, ExpectedStatus := 0 }

/-- A configuration as the YAML decoder can deliver it, with unset and negative
durations. -/
def rawConfig : Config :=
  { Checks :=
      [ { Name := "api", Type_ := "http", Target := "http://localhost:8080/health",
          Interval := 0, Timeout := 0, ExpectedStatus := 0 },
        { Name := "db", Type_ := "tcp", Target := "localhost:5432",
          Interval := 30 * Second, Timeout := -1, ExpectedStatus := 0 } ],
    LogLevel := "", APIPort := 0 }

/-- A TCP check. -/
def dbCheck : ServiceCheck :=
  { Name := "db", Type_ := "tcp", Target := "localhost:5432",
    Interval := 30 * Second, Timeout := 5 * Second, ExpectedStatus := 0 }

/-- A store holding one result with status `DOWN`. -/
def downStore : Checker :=
  (NewChecker rawConfig).performCheck dbCheck sampleEnv

/-- A configuration with two checks of distinct names. -/
def sampleConfig : Config :=
  { Checks := [apiCheck, dbCheck], LogLevel := "info", APIPort := 8080 }

/-- The state after the loop of `api` has registered and stored its first
attempt, while the loop of `db` has not run yet. -/
def afterFirstAttempt : System :=
  { checker :=
      { config := sampleConfig
        results := GoMap.empty.set "api" (performCheckResult apiCheck sampleEnv)
        cancelFns := GoMap.empty.set "api" 0 }
    loops :=
      [ { check := apiCheck, pc := .selecting, done := false },
        { check := dbCheck, pc := .start, done := false } ]
    panicked := false }

/-- A later attempt of the same kind as `sampleEnv`. -/
def laterEnv : Env :=
  { startTime := 2000, elapsed := 9, http := .response 503, tcp := .connected }

/-! # Properties -/

/-! ## Lemmas on Go maps -/

namespace GoMap

variable {V : Type}

theorem eraseKey_cons (k : String) (e : String × V) (l : List (String × V)) :
    eraseKey k (e :: l) = if e.1 = k then eraseKey k l else e :: eraseKey k l := by
  by_cases h : e.1 = k <;> simp [eraseKey, List.filter_cons, h]

theorem find_cons (k : String) (e : String × V) (l : List (String × V)) :
    find k (e :: l) = if e.1 = k then some e.2 else find k l := rfl

theorem find_eraseKey_self (k : String) (l : List (String × V)) :
    find k (eraseKey k l) = none := by
  induction l with
  | nil => rfl
  | cons e l ih =>
    rw [eraseKey_cons]
    split
    · exact ih
    · next h => rw [find_cons, if_neg h]; exact ih

theorem find_eraseKey_ne {n k : String} (h : n ≠ k) (l : List (String × V)) :
    find n (eraseKey k l) = find n l := by
  induction l with
  | nil => rfl
  | cons e l ih =>
    rw [eraseKey_cons, find_cons]
    split
    · next hk =>
      have hn : ¬ e.1 = n := fun hn => h (hn.symm.trans hk)
      rw [if_neg hn]; exact ih
    · rw [find_cons, ih]

theorem get_empty (k : String) : (empty : GoMap V).get k = none := rfl

theorem get_set_self (m : GoMap V) (k : String) (v : V) : (m.set k v).get k = some v := by
  simp [get, set, find]

theorem get_set_ne (m : GoMap V) {n k : String} (v : V) (h : n ≠ k) :
    (m.set k v).get n = m.get n := by
  have hk : k ≠ n := fun e => h e.symm
  simp [get, set, find, hk, find_eraseKey_ne h]

theorem get_set (m : GoMap V) (n k : String) (v : V) :
    (m.set k v).get n = if n = k then some v else m.get n := by
  by_cases h : n = k
  · subst h; simp [get_set_self]
  · simp [h, get_set_ne m v h]

end GoMap

/-! ## The result store -/

theorem GetResultByName_performCheck_self (c : Checker) (check : ServiceCheck) (env : Env) :
    (c.performCheck check env).GetResultByName check.Name
      = (performCheckResult check env, true) := by
  simp [Checker.GetResultByName, Checker.performCheck, GoMap.get_set_self]

theorem GetResultByName_performCheck_ne (c : Checker) (check : ServiceCheck) (env : Env)
    {n : String} (h : n ≠ check.Name) :
    (c.performCheck check env).GetResultByName n = c.GetResultByName n := by
  simp [Checker.GetResultByName, Checker.performCheck, GoMap.get_set_ne _ _ h]

/-- C1: after `performCheck` has written the result of an attempt for `check`,
`GetResultByName check.Name` returns that result with `found = true` whatever
the store held before, and `GetResultByName n` is unchanged for every other
name `n`. -/
theorem performCheck_upsert_per_name (c : Checker) (check : ServiceCheck) (env : Env) :
    (c.performCheck check env).GetResultByName check.Name
        = (performCheckResult check env, true)
      ∧ ∀ n : String, n ≠ check.Name →
          (c.performCheck check env).GetResultByName n = c.GetResultByName n :=
  ⟨GetResultByName_performCheck_self c check env,
   fun _ h => GetResultByName_performCheck_ne c check env h⟩

/-! ## Probe strategies and dispatch -/

theorem contains_mid (a b c : String) : Contains (a ++ b ++ c) b := ⟨a, c, rfl⟩

theorem contains_end (a b : String) : Contains (a ++ b) b :=
  ⟨a, "", by simp⟩

theorem performCheckResult_other (check : ServiceCheck) (env : Env)
    (h1 : check.Type_ ≠ "http") (h2 : check.Type_ ≠ "tcp") :
    performCheckResult check env =
      { Name := check.Name, Type_ := check.Type_, Target := check.Target,
        Status := "UNKNOWN", Message := "Unsupported check type: " ++ check.Type_,
        Timestamp := env.startTime, Duration := env.elapsed } := by
  simp [performCheckResult, h1, h2, CheckResult.zero]

/-- C4 at the failing input: for a control-plane check `performCheck` records
`UNKNOWN` with the unsupported-kind message, although `CheckKubernetes` on the
same check with a healthy control plane returns `UP`; the dispatch reaches
`CheckKubernetes` for no kind string at all. -/
theorem performCheck_control_plane_unknown :
    ((NewChecker ⟨[clusterCheck], "info", 8080⟩).performCheck clusterCheck
        sampleEnv).GetResultByName "cluster"
      = ({ Name := "cluster", Type_ := "kubernetes", Target := "",
           Status := "UNKNOWN", Message := "Unsupported check type: kubernetes",
           Timestamp := 1000, Duration := 7 }, true)
    ∧ (CheckKubernetes clusterCheck 1000 (.body "ok")).Status = "UP"
    ∧ ∀ (check : ServiceCheck) (env : Env),
        (performCheckResult check env).Status = "UP"
          ∨ (performCheckResult check env).Status = "DOWN"
          ∨ ((performCheckResult check env).Status = "UNKNOWN"
              ∧ check.Type_ ≠ "http" ∧ check.Type_ ≠ "tcp") := by
  refine ⟨by decide, by decide, ?_⟩
  intro check env
  by_cases h1 : check.Type_ = "http"
  · cases hh : env.http with
    | requestError err => right; left; simp [performCheckResult, h1, checkHTTP, hh]
    | transportError err => right; left; simp [performCheckResult, h1, checkHTTP, hh]
    | response N =>
      by_cases hN : N = if check.ExpectedStatus = 0 then 200 else check.ExpectedStatus
      · left; simp [performCheckResult, h1, checkHTTP, hh, ← hN]
      · right; left; simp [performCheckResult, h1, checkHTTP, hh, hN]
  · by_cases h2 : check.Type_ = "tcp"
    · cases ht : env.tcp with
      | dialError err => right; left; simp [performCheckResult, h2, checkTCP, ht]
      | connected => left; simp [performCheckResult, h2, checkTCP, ht]
    · right; right
      rw [performCheckResult_other check env h1 h2]
      exact ⟨rfl, h1, h2⟩

theorem performCheck_upsert_per_name_witness :
    (downStore.performCheck apiCheck sampleEnv).GetResultByName "api"
        = (performCheckResult apiCheck sampleEnv, true)
      ∧ (downStore.performCheck apiCheck sampleEnv).GetResultByName "db"
        = downStore.GetResultByName "db" :=
  ⟨(performCheck_upsert_per_name downStore apiCheck sampleEnv).1,
   (performCheck_upsert_per_name downStore apiCheck sampleEnv).2 "db" (by decide)⟩

/-! ## HTTP strategy -/

theorem checkHTTP_response (check : ServiceCheck) (t : Time) (N : Int) :
    checkHTTP check t (.response N) =
      if N ≠ effectiveStatus check.ExpectedStatus then
        { Name := check.Name, Type_ := check.Type_, Target := check.Target,
          Status := "DOWN",
          Message := "Unexpected status: got " ++ fmtInt N ++ ", want "
            ++ fmtInt (effectiveStatus check.ExpectedStatus),
          Timestamp := t, Duration := 0 }
      else
        { Name := check.Name, Type_ := check.Type_, Target := check.Target,
          Status := "UP", Message := "Status code: " ++ fmtInt N,
          Timestamp := t, Duration := 0 } := by
  simp only [checkHTTP, effectiveStatus, CheckResult.zero]

/-- C5, as stated, fails: with `expectedStatus` unset and a 200 response the
result is `UP`, but its message is `Status code: 200`, which is not the text
`status code: 200`. -/
theorem checkHTTP_message_lowercase_fails :
    (200 : Int) = effectiveStatus apiCheck.ExpectedStatus
      ∧ (checkHTTP apiCheck 1000 (.response 200)).Status = "UP"
      ∧ (checkHTTP apiCheck 1000 (.response 200)).Message = "Status code: 200"
      ∧ ¬ ((checkHTTP apiCheck 1000 (.response 200)).Status = "UP"
            ∧ (checkHTTP apiCheck 1000 (.response 200)).Message
                = "status code: " ++ fmtInt 200) := by
  refine ⟨by decide, by decide, by decide, ?_⟩
  rintro ⟨_, h⟩
  revert h
  decide

/-- C5 (amended): for every response status code `N` and configured
`ExpectedStatus` (0, the unset value, counting as 200), `checkHTTP` returns
`UP` with message `Status code: N` exactly when `N` equals the expected status,
and otherwise returns `DOWN` with a message containing both `N` and the
expected status; a 200 response with `ExpectedStatus` unset gives `UP` with a
message containing `200`, and with `ExpectedStatus = 204` gives `DOWN` with a
message containing `200` and `204`. -/
theorem checkHTTP_status_decision (check : ServiceCheck) (t : Time) (N : Int) :
    (((checkHTTP check t (.response N)).Status = "UP"
          ∧ (checkHTTP check t (.response N)).Message = "Status code: " ++ fmtInt N)
        ↔ N = effectiveStatus check.ExpectedStatus)
      ∧ (N ≠ effectiveStatus check.ExpectedStatus →
          (checkHTTP check t (.response N)).Status = "DOWN"
            ∧ Contains (checkHTTP check t (.response N)).Message (fmtInt N)
            ∧ Contains (checkHTTP check t (.response N)).Message
                (fmtInt (effectiveStatus check.ExpectedStatus)))
      ∧ (check.ExpectedStatus = 0 →
          (checkHTTP check t (.response 200)).Status = "UP"
            ∧ Contains (checkHTTP check t (.response 200)).Message "200")
      ∧ (check.ExpectedStatus = 204 →
          (checkHTTP check t (.response 200)).Status = "DOWN"
            ∧ Contains (checkHTTP check t (.response 200)).Message "200"
            ∧ Contains (checkHTTP check t (.response 200)).Message "204") := by
  refine ⟨?_, ?_, ?_, ?_⟩
  · rw [checkHTTP_response]
    by_cases h : N = effectiveStatus check.ExpectedStatus
    · simp [h]
    · simp [h]
  · intro h
    rw [checkHTTP_response, if_pos h]
    refine ⟨rfl, ?_, ?_⟩
    · exact ⟨"Unexpected status: got ",
        ", want " ++ fmtInt (effectiveStatus check.ExpectedStatus),
        by simp [String.append_assoc]⟩
    · exact ⟨"Unexpected status: got " ++ fmtInt N ++ ", want ", "", by simp⟩
  · intro h
    have he : (200 : Int) = effectiveStatus check.ExpectedStatus := by
      simp [effectiveStatus, h]
    rw [checkHTTP_response, if_neg (not_not.mpr he)]
    exact ⟨rfl, "Status code: ", "", show "Status code: " ++ fmtInt 200 = _ by decide⟩
  · intro h
    have he : (200 : Int) ≠ effectiveStatus check.ExpectedStatus := by
      simp [effectiveStatus, h]
    have h204 : effectiveStatus check.ExpectedStatus = 204 := by
      simp [effectiveStatus, h]
    rw [checkHTTP_response, if_pos he, h204]
    exact ⟨rfl,
      ⟨"Unexpected status: got ", ", want 204",
        show "Unexpected status: got " ++ fmtInt 200 ++ ", want " ++ fmtInt 204 = _ by decide⟩,
      ⟨"Unexpected status: got 200, want ", "",
        show "Unexpected status: got " ++ fmtInt 200 ++ ", want " ++ fmtInt 204 = _ by decide⟩⟩

theorem checkHTTP_status_decision_witness :
    (checkHTTP apiCheck 1000 (.response 200)).Status = "UP"
      ∧ Contains (checkHTTP apiCheck 1000 (.response 200)).Message "200"
      ∧ (checkHTTP apiCheck 1000 (.response 503)).Status = "DOWN"
      ∧ Contains (checkHTTP apiCheck 1000 (.response 503)).Message (fmtInt 503)
      ∧ Contains (checkHTTP apiCheck 1000 (.response 503)).Message (fmtInt 200) :=
  ⟨((checkHTTP_status_decision apiCheck 1000 200).2.2.1 (by decide)).1,
   ((checkHTTP_status_decision apiCheck 1000 200).2.2.1 (by decide)).2,
   ((checkHTTP_status_decision apiCheck 1000 503).2.1 (by decide)).1,
   ((checkHTTP_status_decision apiCheck 1000 503).2.1 (by decide)).2.1,
   ((checkHTTP_status_decision apiCheck 1000 503).2.1 (by decide)).2.2⟩

/-! ## Control-plane strategy -/

/-- C10: for every raw response body `b` of the health query, `CheckKubernetes`
returns `UP` exactly when `b` is the string `ok`, and `DOWN` for every other
body (such as `ok` with surrounding white space or a JSON payload), for every
failed query and for every failure to build the client. -/
theorem CheckKubernetes_status_decision (check : ServiceCheck) (t : Time) :
    (∀ b : String, (CheckKubernetes check t (.body b)).Status = "UP" ↔ b = "ok")
      ∧ (∀ b : String, b ≠ "ok" → (CheckKubernetes check t (.body b)).Status = "DOWN")
      ∧ (CheckKubernetes check t (.body " ok ")).Status = "DOWN"
      ∧ (CheckKubernetes check t (.body "ok\n")).Status = "DOWN"
      ∧ (CheckKubernetes check t (.body "\x7b\"status\":\"ok\"\x7d")).Status = "DOWN"
      ∧ (∀ err : String, (CheckKubernetes check t (.queryError err)).Status = "DOWN")
      ∧ (∀ err : String, (CheckKubernetes check t (.clientError err)).Status = "DOWN") := by
  have hdown : ∀ b : String, b ≠ "ok" → (CheckKubernetes check t (.body b)).Status = "DOWN" := by
    intro b hb
    simp [CheckKubernetes, hb]
  refine ⟨?_, hdown, hdown _ (by decide), hdown _ (by decide), hdown _ (by decide), ?_, ?_⟩
  · intro b
    by_cases hb : b = "ok"
    · simp [CheckKubernetes, hb]
    · simp [CheckKubernetes, hb]
  · intro err; rfl
  · intro err; rfl

theorem CheckKubernetes_status_decision_witness :
    (CheckKubernetes clusterCheck 1000 (.body "ok")).Status = "UP"
      ∧ (CheckKubernetes clusterCheck 1000 (.body "OK")).Status = "DOWN" :=
  ⟨((CheckKubernetes_status_decision clusterCheck 1000).1 "ok").2 rfl,
   (CheckKubernetes_status_decision clusterCheck 1000).2.1 "OK" (by decide)⟩

/-! ## Query API -/

theorem sliceFrom_result_path (name : String) :
    sliceFrom ("/result/" ++ name) "/result/".utf8ByteSize = .text name := by
  have h : ("/result/" ++ name).data = "/result/".data ++ name.data := String.data_append _ _
  have h8 : "/result/".utf8ByteSize = 8 := by decide
  have hd : "/result/".data = ['/', 'r', 'e', 's', 'u', 'l', 't', '/'] := rfl
  unfold sliceFrom
  rw [h, h8, hd]
  simp [dropBytes, Char.utf8Size]

/-- C6, as stated, fails: the empty name is absent from the store of a fresh
checker, and the handler answers the path `/result/` with 400, not with 404. -/
theorem handleResultByName_empty_name_not_404 :
    ((NewChecker rawConfig).GetResultByName "").2 = false
      ∧ handleResultByName (NewChecker rawConfig) ("/result/" ++ "")
          = some (httpError "Service name required" 400)
      ∧ (handleResultByName (NewChecker rawConfig) ("/result/" ++ "")).map Response.StatusCode
          ≠ some 404 := by
  refine ⟨by decide, by decide, by decide⟩

/-- C6 (amended): for every store state and every non-empty name, the handler
answers `/result/<name>` with 404 when the name is absent from the store and
with status 200 and the stored `CheckResult` when it is present, whatever the
status of that result (a `DOWN` result included); the empty name is answered
with 400 whatever the store holds; every path that starts with `/result/` is
answered, and never with a server error. -/
theorem handleResultByName_answers (checker : Checker) (name : String) (hne : name ≠ "") :
    ((checker.GetResultByName name).2 = false →
        handleResultByName checker ("/result/" ++ name)
          = some (httpError "Service not found" 404))
      ∧ (∀ r : CheckResult, checker.GetResultByName name = (r, true) →
          handleResultByName checker ("/result/" ++ name)
            = some { StatusCode := 200, ContentType := "application/json", body := .json r })
      ∧ handleResultByName checker ("/result/" ++ "")
          = some (httpError "Service name required" 400)
      ∧ ∀ rest : String, ∃ resp, handleResultByName checker ("/result/" ++ rest) = some resp
          ∧ resp.StatusCode < 500 := by
  refine ⟨?_, ?_, ?_, ?_⟩
  · intro h
    unfold handleResultByName
    rw [sliceFrom_result_path]
    simp only [if_neg hne]
    cases hr : checker.GetResultByName name with
    | mk r found =>
      rw [hr] at h
      simp only at h
      simp [h]
  · intro r hr
    unfold handleResultByName
    rw [sliceFrom_result_path]
    simp only [if_neg hne, hr]
    simp
  · unfold handleResultByName
    rw [sliceFrom_result_path]
    simp
  · intro rest
    unfold handleResultByName
    rw [sliceFrom_result_path]
    simp only
    split
    · exact ⟨_, rfl, by simp [httpError]⟩
    · split
      · exact ⟨_, rfl, by simp [httpError]⟩
      · exact ⟨_, rfl, by simp⟩

theorem handleResultByName_answers_witness :
    handleResultByName downStore ("/result/" ++ "db")
        = some
          { StatusCode := 200, ContentType := "application/json",
            body := .json
              { Name := "db", Type_ := "tcp", Target := "localhost:5432", Status := "DOWN",
                Message := "Failed to connect: connection refused",
                Timestamp := 1000, Duration := 7 } }
      ∧ handleResultByName downStore ("/result/" ++ "nonexistent")
        = some (httpError "Service not found" 404) :=
  ⟨(handleResultByName_answers downStore "db" (by decide)).2.1 _ (by decide),
   (handleResultByName_answers downStore "nonexistent" (by decide)).1 (by decide)⟩

/-! ## Configuration defaults -/

theorem setCheckDefaults_eq (c : ServiceCheck) :
    setCheckDefaults c =
      { c with
        Interval := if c.Interval ≤ 0 then 60000000000 else c.Interval,
        Timeout := if c.Timeout ≤ 0 then 5000000000 else c.Timeout } := by
  unfold setCheckDefaults
  by_cases hi : c.Interval ≤ 0 <;> by_cases ht : c.Timeout ≤ 0 <;> simp [hi, ht, Second]

theorem setCheckDefaults_idem (c : ServiceCheck) :
    setCheckDefaults (setCheckDefaults c) = setCheckDefaults c := by
  rw [setCheckDefaults_eq c, setCheckDefaults_eq]
  by_cases hi : c.Interval ≤ 0 <;> by_cases ht : c.Timeout ≤ 0 <;> simp [hi, ht]

theorem setDefaults_Checks (config : Config) :
    (setDefaults config).Checks = config.Checks.map setCheckDefaults := by
  unfold setDefaults
  by_cases hl : config.LogLevel = "" <;> by_cases hp : config.APIPort = 0 <;> simp [hl, hp]

theorem setDefaults_idem (config : Config) :
    setDefaults (setDefaults config) = setDefaults config := by
  unfold setDefaults
  by_cases hl : config.LogLevel = "" <;> by_cases hp : config.APIPort = 0 <;>
    simp [hl, hp, setCheckDefaults_idem]

theorem checkHTTP_unset_expected (c : ServiceCheck) (t : Time) (o : HTTPOutcome)
    (h : c.ExpectedStatus = 0) :
    checkHTTP c t o = checkHTTP { c with ExpectedStatus := 200 } t o := by
  cases o <;> simp [checkHTTP, h]

/-- C9: for every parsed configuration `LoadConfig` returns the configuration
with defaults applied: check by check, interval and timeout are strictly
positive, a non-positive (unset) interval has become 60 s and a non-positive
timeout 5 s, positive values and the other check fields are unchanged, an
unset `ExpectedStatus` makes the HTTP strategy behave as with 200, and
applying the defaults a second time changes nothing. -/
theorem LoadConfig_defaults (data : String) (unmarshal : String → Except String Config)
    (parsed : Config) (h : unmarshal data = .ok parsed) :
    LoadConfig (.ok data) unmarshal = .ok (setDefaults parsed)
      ∧ (setDefaults parsed).Checks.length = parsed.Checks.length
      ∧ (∀ (i : Nat) (c : ServiceCheck), parsed.Checks[i]? = some c →
          ∃ d, (setDefaults parsed).Checks[i]? = some d
            ∧ 0 < d.Interval ∧ 0 < d.Timeout
            ∧ (c.Interval ≤ 0 → d.Interval = 60000000000)
            ∧ (0 < c.Interval → d.Interval = c.Interval)
            ∧ (c.Timeout ≤ 0 → d.Timeout = 5000000000)
            ∧ (0 < c.Timeout → d.Timeout = c.Timeout)
            ∧ d.Name = c.Name ∧ d.Type_ = c.Type_ ∧ d.Target = c.Target
            ∧ d.ExpectedStatus = c.ExpectedStatus)
      ∧ (∀ (c : ServiceCheck) (t : Time) (o : HTTPOutcome), c.ExpectedStatus = 0 →
          checkHTTP c t o = checkHTTP { c with ExpectedStatus := 200 } t o)
      ∧ setDefaults (setDefaults parsed) = setDefaults parsed := by
  refine ⟨?_, ?_, ?_, fun c t o hc => checkHTTP_unset_expected c t o hc, setDefaults_idem parsed⟩
  · simp [LoadConfig, h]
  · simp [setDefaults_Checks]
  · intro i c hc
    refine ⟨setCheckDefaults c, ?_, ?_⟩
    · simp [setDefaults_Checks, List.getElem?_map, hc]
    · rw [setCheckDefaults_eq]
      by_cases hi : c.Interval ≤ 0 <;> by_cases ht : c.Timeout ≤ 0 <;>
        simp [hi, ht] <;>
        first
          | exact not_le.mp ht
          | exact not_le.mp hi
          | exact ⟨not_le.mp hi, not_le.mp ht⟩

theorem LoadConfig_defaults_witness :
    LoadConfig (.ok "checks: ...") (fun _ => .ok rawConfig)
      = .ok
          { Checks :=
              [ { Name := "api", Type_ := "http", Target := "http://localhost:8080/health",
                  Interval := 60000000000, Timeout := 5000000000, ExpectedStatus := 0 },
                { Name := "db", Type_ := "tcp", Target := "localhost:5432",
                  Interval := 30000000000, Timeout := 5000000000, ExpectedStatus := 0 } ],
            LogLevel := "info", APIPort := 8080 } :=
  (LoadConfig_defaults "checks: ..." (fun _ => .ok rawConfig) rawConfig rfl).1.trans
    (congrArg Except.ok (by decide))

/-! ## Enabled steps -/

theorem step_of_live {s : System} (h : s.panicked = false) (a : Action) :
    step s a = stepLive s a := by
  simp [step, h]

theorem stepLive_of_step {s t : System} {a : Action} (h : step s a = some t) :
    s.panicked = false ∧ stepLive s a = some t := by
  unfold step at h
  split at h
  · cases h
  · next hp => exact ⟨by simpa using hp, h⟩

theorem step_register {s : System} {i : Nat} {l : Loop} (h : s.panicked = false)
    (hl : s.loops[i]? = some l) (hp : l.pc = .start) :
    step s (.register i) = some
      { s with
        checker := { s.checker with cancelFns := s.checker.cancelFns.set l.check.Name i }
        loops := modifyAt (fun l => { l with pc := .registered }) i s.loops } := by
  rw [step_of_live h]
  simp only [stepLive, hl, hp, if_true]

theorem step_newTicker {s : System} {i : Nat} {l : Loop} (h : s.panicked = false)
    (hl : s.loops[i]? = some l) (hp : l.pc = .registered) (hi : 0 < l.check.Interval) :
    step s (.newTicker i) = some
      { s with loops := modifyAt (fun l => { l with pc := .armed }) i s.loops } := by
  rw [step_of_live h]
  simp only [stepLive, hl, hp, if_true, if_neg (not_le.mpr hi)]

theorem step_newTicker_panic {s : System} {i : Nat} {l : Loop} (h : s.panicked = false)
    (hl : s.loops[i]? = some l) (hp : l.pc = .registered) (hi : l.check.Interval ≤ 0) :
    step s (.newTicker i) = some { s with panicked := true } := by
  rw [step_of_live h]
  simp only [stepLive, hl, hp, if_true, if_pos hi]

theorem step_firstCheck {s : System} {i : Nat} {l : Loop} (h : s.panicked = false)
    (hl : s.loops[i]? = some l) (hp : l.pc = .armed) (env : Env) :
    step s (.firstCheck i env) = some
      { s with
        checker := s.checker.performCheck l.check env
        loops := modifyAt (fun l => { l with pc := .selecting }) i s.loops } := by
  rw [step_of_live h]
  simp only [stepLive, hl, hp, if_true]

theorem step_tick {s : System} {i : Nat} {l : Loop} (h : s.panicked = false)
    (hl : s.loops[i]? = some l) (hp : l.pc = .selecting) (env : Env) :
    step s (.tick i env) = some { s with checker := s.checker.performCheck l.check env } := by
  rw [step_of_live h]
  simp only [stepLive, hl, hp, if_true]

theorem run_cons_of_step {s s1 : System} {a : Action} (as : List Action)
    (h : step s a = some s1) : run s (a :: as) = run s1 as := by
  simp [run, h]

theorem run_nil (s : System) : run s [] = some s := rfl

/-! ## Kinds without a strategy -/

/-- C3, as stated, fails: for the kind `ftp` the recorded status is UNKNOWN but
the recorded message is not `unsupported check type: ftp`. -/
theorem unsupported_message_lowercase_fails :
    ((NewChecker ⟨[ftpCheck], "info", 8080⟩).performCheck ftpCheck sampleEnv).GetResultByName
        "files"
      = ({ Name := "files", Type_ := "ftp", Target := "ftp.example.org:21",
           Status := "UNKNOWN", Message := "Unsupported check type: ftp",
           Timestamp := 1000, Duration := 7 }, true)
    ∧ (performCheckResult ftpCheck sampleEnv).Message ≠ "unsupported check type: ftp" := by
  constructor
  · decide
  · decide

/-- C3 (amended): for every check whose kind is not a recognized kind, every
attempt of `performCheck`, from every store state, records under the name of
the check a result with status `UNKNOWN` and message exactly
`Unsupported check type: ` followed by the kind string. Startup does not fail
on it: `LoadConfig` returns the configuration with the check in it, its kind
unchanged, and `NewChecker` and `Start` give a running process with one loop
per configured check; the loop of the check then records that result at its
first attempt and at every tick. -/
theorem performCheck_unsupported_kind (check : ServiceCheck)
    (hk : recognizedKind check.Type_ = false) :
    (∀ (c : Checker) (env : Env),
        ∃ r, (c.performCheck check env).GetResultByName check.Name = (r, true)
          ∧ r.Status = "UNKNOWN"
          ∧ r.Message = "Unsupported check type: " ++ check.Type_)
      ∧ (∀ (data : String) (unmarshal : String → Except String Config) (parsed : Config),
          unmarshal data = .ok parsed → check ∈ parsed.Checks →
          ∃ config, LoadConfig (.ok data) unmarshal = .ok config
            ∧ setCheckDefaults check ∈ config.Checks
            ∧ (setCheckDefaults check).Type_ = check.Type_
            ∧ (boot config).panicked = false
            ∧ (boot config).loops.map Loop.check = config.Checks)
      ∧ (∀ (s : System) (i : Nat) (l : Loop) (env : Env), s.panicked = false →
          s.loops[i]? = some l → l.check = check →
          (l.pc = .armed →
            ∃ t r, step s (.firstCheck i env) = some t ∧ t.panicked = false
              ∧ t.checker.GetResultByName check.Name = (r, true)
              ∧ r.Status = "UNKNOWN"
              ∧ r.Message = "Unsupported check type: " ++ check.Type_)
          ∧ (l.pc = .selecting →
            ∃ t r, step s (.tick i env) = some t ∧ t.panicked = false
              ∧ t.checker.GetResultByName check.Name = (r, true)
              ∧ r.Status = "UNKNOWN"
              ∧ r.Message = "Unsupported check type: " ++ check.Type_)) := by
  have h1 : check.Type_ ≠ "http" := by
    intro h
    simp [recognizedKind, h] at hk
  have h2 : check.Type_ ≠ "tcp" := by
    intro h
    simp [recognizedKind, h] at hk
  have hres : ∀ (c : Checker) (env : Env),
      ∃ r, (c.performCheck check env).GetResultByName check.Name = (r, true)
        ∧ r.Status = "UNKNOWN"
        ∧ r.Message = "Unsupported check type: " ++ check.Type_ := by
    intro c env
    refine ⟨performCheckResult check env, GetResultByName_performCheck_self c check env, ?_, ?_⟩
    · rw [performCheckResult_other check env h1 h2]
    · rw [performCheckResult_other check env h1 h2]
  refine ⟨hres, ?_, ?_⟩
  · intro data unmarshal parsed hp hmem
    refine ⟨setDefaults parsed, by simp [LoadConfig, hp], ?_, ?_, rfl, ?_⟩
    · rw [setDefaults_Checks]
      exact List.mem_map.mpr ⟨check, hmem, rfl⟩
    · rw [setCheckDefaults_eq]
    · simp [boot, Checker.Start, NewChecker, List.map_map, Function.comp_def]
  · intro s i l env hlive hl hc
    subst hc
    constructor
    · intro hp
      obtain ⟨r, hr, hs, hm⟩ := hres s.checker env
      exact ⟨_, r, step_firstCheck hlive hl hp env, hlive, hr, hs, hm⟩
    · intro hp
      obtain ⟨r, hr, hs, hm⟩ := hres s.checker env
      exact ⟨_, r, step_tick hlive hl hp env, hlive, hr, hs, hm⟩

theorem performCheck_unsupported_kind_witness :
    ∃ r, ((NewChecker ⟨[ftpCheck], "info", 8080⟩).performCheck ftpCheck sampleEnv).GetResultByName
        ftpCheck.Name = (r, true)
      ∧ r.Status = "UNKNOWN"
      ∧ r.Message = "Unsupported check type: " ++ ftpCheck.Type_ :=
  (performCheck_unsupported_kind ftpCheck (by decide)).1
    (NewChecker ⟨[ftpCheck], "info", 8080⟩) sampleEnv

/-! ## Runner: loops and steps -/

theorem getElem?_modifyAt (f : Loop → Loop) (i j : Nat) (ls : List Loop) :
    (modifyAt f i ls)[j]? = if j = i then (ls[j]?).map f else ls[j]? := by
  induction ls generalizing i j with
  | nil => cases i <;> simp [modifyAt]
  | cons l ls ih =>
    cases i with
    | zero =>
      cases j with
      | zero => simp [modifyAt]
      | succ j => simp [modifyAt]
    | succ i =>
      cases j with
      | zero => simp [modifyAt]
      | succ j => simp [modifyAt, ih]

theorem map_check_modifyAt (f : Loop → Loop) (hf : ∀ l, (f l).check = l.check) (i : Nat)
    (ls : List Loop) : (modifyAt f i ls).map Loop.check = ls.map Loop.check := by
  induction ls generalizing i with
  | nil => cases i <;> rfl
  | cons l ls ih =>
    cases i with
    | zero => simp [modifyAt, hf]
    | succ i => simp [modifyAt, ih]

theorem map_pc_modifyAt (f : Loop → Loop) (hf : ∀ l, (f l).pc = l.pc) (i : Nat)
    (ls : List Loop) : (modifyAt f i ls).map Loop.pc = ls.map Loop.pc := by
  induction ls generalizing i with
  | nil => cases i <;> rfl
  | cons l ls ih =>
    cases i with
    | zero => simp [modifyAt, hf]
    | succ i => simp [modifyAt, ih]

theorem getElem?_foldl_cancel (vals : List Nat) (ls : List Loop) (j : Nat) :
    (vals.foldl cancel ls)[j]?
      = (ls[j]?).map (fun l => { l with done := l.done || decide (j ∈ vals) }) := by
  induction vals generalizing ls with
  | nil => cases h : ls[j]? <;> simp [h]
  | cons v vals ih =>
    rw [List.foldl_cons, ih, cancel, getElem?_modifyAt]
    by_cases hj : j = v
    · subst hj
      cases h : ls[j]? <;> simp [h]
    · cases h : ls[j]? <;> simp [hj, h]

theorem map_check_foldl_cancel (vals : List Nat) (ls : List Loop) :
    (vals.foldl cancel ls).map Loop.check = ls.map Loop.check := by
  induction vals generalizing ls with
  | nil => rfl
  | cons v vals ih =>
    rw [List.foldl_cons, ih, cancel]
    exact map_check_modifyAt (fun l => { l with done := true }) (fun _ => rfl) v ls

theorem map_pc_foldl_cancel (vals : List Nat) (ls : List Loop) :
    (vals.foldl cancel ls).map Loop.pc = ls.map Loop.pc := by
  induction vals generalizing ls with
  | nil => rfl
  | cons v vals ih =>
    rw [List.foldl_cons, ih, cancel]
    exact map_pc_modifyAt (fun l => { l with done := true }) (fun _ => rfl) v ls

theorem performCheckResult_ident (check : ServiceCheck) (env : Env) :
    (performCheckResult check env).Name = check.Name
      ∧ (performCheckResult check env).Type_ = check.Type_
      ∧ (performCheckResult check env).Target = check.Target := by
  unfold performCheckResult
  by_cases h1 : check.Type_ = "http"
  · simp only [h1, if_true]
    cases env.http with
    | requestError err => simp [checkHTTP, h1]
    | transportError err => simp [checkHTTP, h1]
    | response N =>
      rw [checkHTTP_response]
      split <;> simp [h1]
  · by_cases h2 : check.Type_ = "tcp"
    · simp only [h2, if_true]
      cases env.tcp <;> simp [checkTCP, h2]
    · simp [h1, h2]

theorem Inv_boot (config : Config) : Inv config (boot config) where
  checks := by simp [boot, Checker.Start, NewChecker, List.map_map, Function.comp_def]
  stored := by
    intro n r h
    simp [boot, Checker.Start, NewChecker, GoMap.get_empty] at h
  attempted := by
    intro i l h ha
    simp only [boot, Checker.Start, NewChecker, List.getElem?_map] at h
    cases hc : config.Checks[i]? with
    | none => simp [hc] at h
    | some c =>
      simp [hc] at h
      subst h
      simp [PC.attempted] at ha
  registered := by
    intro i l h hp
    simp only [boot, Checker.Start, NewChecker, List.getElem?_map] at h
    cases hc : config.Checks[i]? with
    | none => simp [hc] at h
    | some c =>
      simp [hc] at h
      subst h
      simp at hp

theorem Inv_register {config : Config} {s : System} (hI : Inv config s) {i : Nat} {l : Loop}
    (hl : s.loops[i]? = some l) (hpc : l.pc = .start) :
    Inv config
      { s with
        checker := { s.checker with cancelFns := s.checker.cancelFns.set l.check.Name i }
        loops := modifyAt (fun l => { l with pc := .registered }) i s.loops } where
  checks := by
    show (modifyAt (fun l => { l with pc := .registered }) i s.loops).map Loop.check = _
    rw [map_check_modifyAt (fun l : Loop => { l with pc := .registered }) (fun _ => rfl)]
    exact hI.checks
  stored := by
    intro n r h
    obtain ⟨hn, i0, l0, h0, hname, hatt, hty⟩ := hI.stored n r h
    refine ⟨hn, i0, l0, ?_, hname, hatt, hty⟩
    show (modifyAt (fun l => { l with pc := .registered }) i s.loops)[i0]? = some l0
    rw [getElem?_modifyAt]
    have hne : i0 ≠ i := by
      rintro rfl
      rw [hl] at h0
      injection h0 with h0
      subst h0
      rw [hpc] at hatt
      simp [PC.attempted] at hatt
    rw [if_neg hne, h0]
  attempted := by
    intro j l1 h1 ha
    change (modifyAt (fun l => { l with pc := .registered }) i s.loops)[j]? = some l1 at h1
    rw [getElem?_modifyAt] at h1
    by_cases hj : j = i
    · subst hj
      rw [if_pos rfl, hl] at h1
      simp at h1
      subst h1
      simp [PC.attempted] at ha
    · rw [if_neg hj] at h1
      exact hI.attempted j l1 h1 ha
  registered := by
    intro j l1 h1 hp
    change (modifyAt (fun l => { l with pc := .registered }) i s.loops)[j]? = some l1 at h1
    show ∃ (j0 : Nat) (l2 : Loop), (s.checker.cancelFns.set l.check.Name i).get l1.check.Name = some j0
      ∧ (modifyAt (fun l => { l with pc := .registered }) i s.loops)[j0]? = some l2
      ∧ l2.check.Name = l1.check.Name
    by_cases hname : l1.check.Name = l.check.Name
    · refine ⟨i, { l with pc := .registered }, ?_, ?_, hname.symm⟩
      · rw [hname, GoMap.get_set_self]
      · rw [getElem?_modifyAt, if_pos rfl, hl]; rfl
    · have hj : j ≠ i := by
        rintro rfl
        rw [getElem?_modifyAt, if_pos rfl, hl] at h1
        simp at h1
        subst h1
        exact hname rfl
      rw [getElem?_modifyAt, if_neg hj] at h1
      obtain ⟨j0, l2, hget, hl2, hn2⟩ := hI.registered j l1 h1 hp
      refine ⟨j0, if j0 = i then { l2 with pc := .registered } else l2, ?_, ?_, ?_⟩
      · rw [GoMap.get_set_ne _ _ hname]; exact hget
      · rw [getElem?_modifyAt, hl2]
        by_cases h0 : j0 = i <;> simp [h0]
      · by_cases h0 : j0 = i <;> simp [h0, hn2]

theorem Inv_update {config : Config} {s : System} (hI : Inv config s)
    (results1 : GoMap CheckResult) (loops1 : List Loop) (p : Bool)
    (hres : results1 = s.checker.results ∨
      ∃ (i : Nat) (l l2 : Loop) (env : Env), s.loops[i]? = some l
        ∧ results1 = s.checker.results.set l.check.Name (performCheckResult l.check env)
        ∧ loops1[i]? = some l2 ∧ l2.check = l.check ∧ l2.pc.attempted = true)
    (hfw : ∀ (j : Nat) (l1 : Loop), s.loops[j]? = some l1 →
      ∃ l2, loops1[j]? = some l2 ∧ l2.check = l1.check
        ∧ (l1.pc.attempted = true → l2.pc.attempted = true))
    (hbw : ∀ (j : Nat) (l2 : Loop), loops1[j]? = some l2 →
      ∃ l1, s.loops[j]? = some l1 ∧ l1.check = l2.check
        ∧ (l2.pc ≠ .start → l1.pc ≠ .start)
        ∧ (l2.pc.attempted = true →
            l1.pc.attempted = true ∨ ∃ r, results1.get l2.check.Name = some r))
    (hck : loops1.map Loop.check = s.loops.map Loop.check) :
    Inv config
      { checker := { s.checker with results := results1 }, loops := loops1, panicked := p } where
  checks := hck.trans hI.checks
  stored := by
    intro n r h
    change results1.get n = some r at h
    have hold : ∀ r0, s.checker.results.get n = some r0 →
        r0.Name = n ∧ ∃ (i : Nat) (l : Loop), loops1[i]? = some l ∧ l.check.Name = n
          ∧ l.pc.attempted = true ∧ r0.Type_ = l.check.Type_ ∧ r0.Target = l.check.Target := by
      intro r0 h0
      obtain ⟨hn, i0, l0, hl0, hname, hatt, hty, htg⟩ := hI.stored n r0 h0
      obtain ⟨l2, hl2, hc2, ha2⟩ := hfw i0 l0 hl0
      exact ⟨hn, i0, l2, hl2, by rw [hc2]; exact hname, ha2 hatt, by rw [hc2]; exact hty,
        by rw [hc2]; exact htg⟩
    rcases hres with hres | ⟨i, l, l2, env, hl, hres, hl2, hc2, ha2⟩
    · rw [hres] at h
      exact hold r h
    · rw [hres, GoMap.get_set] at h
      by_cases hn : n = l.check.Name
      · rw [if_pos hn] at h
        injection h with h
        subst h
        obtain ⟨e1, e2, e3⟩ := performCheckResult_ident l.check env
        exact ⟨e1.trans hn.symm, i, l2, hl2, by rw [hc2]; exact hn.symm, ha2,
          by rw [hc2]; exact e2, by rw [hc2]; exact e3⟩
      · rw [if_neg hn] at h
        exact hold r h
  attempted := by
    intro j l2 h2 ha
    change loops1[j]? = some l2 at h2
    show ∃ r, results1.get l2.check.Name = some r
    obtain ⟨l1, hl1, hc1, -, hor⟩ := hbw j l2 h2
    rcases hor ha with h1 | h1
    · obtain ⟨r, hr⟩ := hI.attempted j l1 hl1 h1
      rw [hc1] at hr
      rcases hres with hres | ⟨i, l, l3, env, hl, hres, -⟩
      · exact ⟨r, by rw [hres]; exact hr⟩
      · rw [hres, GoMap.get_set]
        by_cases hn : l2.check.Name = l.check.Name
        · exact ⟨_, by rw [if_pos hn]⟩
        · exact ⟨r, by rw [if_neg hn]; exact hr⟩
    · exact h1
  registered := by
    intro j l2 h2 hp
    change loops1[j]? = some l2 at h2
    obtain ⟨l1, hl1, hc1, hst, -⟩ := hbw j l2 h2
    obtain ⟨j0, l3, hget, hl3, hn3⟩ := hI.registered j l1 hl1 (hst hp)
    obtain ⟨l4, hl4, hc4, -⟩ := hfw j0 l3 hl3
    refine ⟨j0, l4, ?_, hl4, ?_⟩
    · rw [← hc1]; exact hget
    · rw [hc4, hn3, hc1]

theorem Inv_stepLive {config : Config} {s t : System} {a : Action} (hI : Inv config s)
    (h : stepLive s a = some t) : Inv config t := by
  cases a with
  | register i =>
    simp only [stepLive] at h
    split at h
    · next l hl =>
      split at h
      · next hpc =>
        injection h with h
        subst h
        exact Inv_register hI hl hpc
      · cases h
    · cases h
  | newTicker i =>
    simp only [stepLive] at h
    split at h
    · next l hl =>
      split at h
      · next hpc =>
        have hfw : ∀ (j : Nat) (l1 : Loop), s.loops[j]? = some l1 →
            ∃ l2, (modifyAt (fun l => { l with pc := .armed }) i s.loops)[j]? = some l2
              ∧ l2.check = l1.check ∧ (l1.pc.attempted = true → l2.pc.attempted = true) := by
          intro j l1 h1
          rw [getElem?_modifyAt, h1]
          by_cases hj : j = i
          · subst hj
            rw [hl] at h1
            injection h1 with h1
            subst h1
            exact ⟨{ l with pc := .armed }, by simp, rfl, fun ha => by rw [hpc] at ha; cases ha⟩
          · exact ⟨l1, by simp [hj], rfl, id⟩
        have hbw : ∀ (j : Nat) (l2 : Loop),
            (modifyAt (fun l => { l with pc := .armed }) i s.loops)[j]? = some l2 →
            ∃ l1, s.loops[j]? = some l1 ∧ l1.check = l2.check
              ∧ (l2.pc ≠ .start → l1.pc ≠ .start)
              ∧ (l2.pc.attempted = true →
                  l1.pc.attempted = true ∨ ∃ r, s.checker.results.get l2.check.Name = some r) := by
          intro j l2 h2
          rw [getElem?_modifyAt] at h2
          by_cases hj : j = i
          · subst hj
            rw [if_pos rfl, hl] at h2
            simp at h2
            subst h2
            exact ⟨l, hl, rfl, fun _ => by rw [hpc]; simp, fun ha => by cases ha⟩
          · rw [if_neg hj] at h2
            exact ⟨l2, h2, rfl, id, Or.inl⟩
        split at h
        · injection h with h
          subst h
          exact Inv_update hI _ _ _ (Or.inl rfl) (fun j l1 h1 => ⟨l1, h1, rfl, id⟩)
            (fun j l2 h2 => ⟨l2, h2, rfl, id, Or.inl⟩) rfl
        · injection h with h
          subst h
          exact Inv_update hI _ _ _ (Or.inl rfl) hfw hbw
            (map_check_modifyAt (fun l : Loop => { l with pc := .armed }) (fun _ => rfl) i
              s.loops)
      · cases h
    · cases h
  | firstCheck i env =>
    simp only [stepLive] at h
    split at h
    · next l hl =>
      split at h
      · next hpc =>
        injection h with h
        subst h
        refine Inv_update hI _ _ _ (Or.inr ⟨i, l, { l with pc := .selecting }, env, hl, rfl, ?_,
          rfl, rfl⟩) ?_ ?_ ?_
        · rw [getElem?_modifyAt, if_pos rfl, hl]; rfl
        · intro j l1 h1
          rw [getElem?_modifyAt, h1]
          by_cases hj : j = i
          · exact ⟨{ l1 with pc := .selecting }, by simp [hj], rfl, fun _ => rfl⟩
          · exact ⟨l1, by simp [hj], rfl, id⟩
        · intro j l2 h2
          rw [getElem?_modifyAt] at h2
          by_cases hj : j = i
          · subst hj
            rw [if_pos rfl, hl] at h2
            simp at h2
            subst h2
            exact ⟨l, hl, rfl, fun _ => by rw [hpc]; simp,
              fun _ => Or.inr ⟨performCheckResult l.check env, GoMap.get_set_self _ _ _⟩⟩
          · rw [if_neg hj] at h2
            exact ⟨l2, h2, rfl, id, Or.inl⟩
        · exact map_check_modifyAt (fun l : Loop => { l with pc := .selecting })
            (fun _ => rfl) i s.loops
      · cases h
    · cases h
  | tick i env =>
    simp only [stepLive] at h
    split at h
    · next l hl =>
      split at h
      · next hpc =>
        injection h with h
        subst h
        refine Inv_update hI _ _ _ (Or.inr ⟨i, l, l, env, hl, rfl, hl, rfl, ?_⟩) ?_ ?_ rfl
        · rw [hpc]; rfl
        · intro j l1 h1
          exact ⟨l1, h1, rfl, id⟩
        · intro j l2 h2
          exact ⟨l2, h2, rfl, id, Or.inl⟩
      · cases h
    · cases h
  | ctxDone i =>
    simp only [stepLive] at h
    split at h
    · next l hl =>
      split at h
      · next hpc =>
        injection h with h
        subst h
        refine Inv_update hI _ _ _ (Or.inl rfl) ?_ ?_ ?_
        · intro j l1 h1
          rw [getElem?_modifyAt, h1]
          by_cases hj : j = i
          · exact ⟨{ l1 with pc := .returned }, by simp [hj], rfl, fun _ => rfl⟩
          · exact ⟨l1, by simp [hj], rfl, id⟩
        · intro j l2 h2
          rw [getElem?_modifyAt] at h2
          by_cases hj : j = i
          · subst hj
            rw [if_pos rfl, hl] at h2
            simp at h2
            subst h2
            refine ⟨l, hl, rfl, fun _ => by rw [hpc.1]; simp, fun _ => Or.inl ?_⟩
            rw [hpc.1]; rfl
          · rw [if_neg hj] at h2
            exact ⟨l2, h2, rfl, id, Or.inl⟩
        · exact map_check_modifyAt (fun l : Loop => { l with pc := .returned })
            (fun _ => rfl) i s.loops
      · cases h
    · cases h
  | stop =>
    simp only [stepLive] at h
    injection h with h
    subst h
    refine Inv_update hI _ _ _ (Or.inl rfl) ?_ ?_ (map_check_foldl_cancel _ _)
    · intro j l1 h1
      rw [getElem?_foldl_cancel, h1]
      exact ⟨_, rfl, rfl, id⟩
    · intro j l2 h2
      rw [getElem?_foldl_cancel] at h2
      cases h1 : s.loops[j]? with
      | none => rw [h1] at h2; simp at h2
      | some l1 =>
        rw [h1] at h2
        simp at h2
        subst h2
        exact ⟨l1, rfl, rfl, id, Or.inl⟩

theorem Inv_step {config : Config} {s t : System} {a : Action} (hI : Inv config s)
    (h : step s a = some t) : Inv config t :=
  Inv_stepLive hI (stepLive_of_step h).2

theorem Inv_run {config : Config} (as : List Action) {s t : System} (hI : Inv config s)
    (h : run s as = some t) : Inv config t := by
  induction as generalizing s with
  | nil =>
    simp only [run] at h
    injection h with h
    subst h
    exact hI
  | cons a as ih =>
    simp only [run] at h
    split at h
    · next s1 hs1 => exact ih (Inv_step hI hs1) h
    · cases h

theorem Inv_reachable {config : Config} {s : System} (h : Reachable (boot config) s) :
    Inv config s := by
  obtain ⟨as, has⟩ := h
  exact Inv_run as (Inv_boot config) has

theorem check_of_loop {config : Config} {s : System} (hI : Inv config s) {i : Nat} {l : Loop}
    (h : s.loops[i]? = some l) : config.Checks[i]? = some l.check := by
  rw [← hI.checks, List.getElem?_map, h]
  rfl

theorem GetResultByName_eq_of_get {c : Checker} {n : String} {r : CheckResult}
    (h : c.results.get n = some r) : c.GetResultByName n = (r, true) := by
  simp [Checker.GetResultByName, h]

theorem GetResultByName_eq_of_get_none {c : Checker} {n : String}
    (h : c.results.get n = none) : c.GetResultByName n = (CheckResult.zero, false) := by
  simp [Checker.GetResultByName, h]

/-- C2: in every state reached after `NewChecker` and `Start`, the loops are
those of the configured checks; for a check whose name no other position of the
configuration carries, once its loop has stored its first attempt (it is in the
`select` or has returned), `GetResultByName` of its name returns `found = true`
with a result whose `Name`, `Type` and `Target` are those of the check; for a
name none of whose loops has completed an attempt, and for every name on the
store of a fresh `NewChecker`, `GetResultByName` returns `found = false`; while
the process runs, a loop that has not started yet and whose interval is
positive can register, create its ticker and complete its first attempt, and a
loop whose interval is not positive panics at `time.NewTicker`, which stores
nothing and ends the process. -/
theorem first_attempt_recorded (config : Config) (s : System)
    (hs : Reachable (boot config) s) :
    s.loops.map Loop.check = config.Checks
      ∧ (∀ (i : Nat) (l : Loop), s.loops[i]? = some l →
          (∀ (j : Nat) (c : ServiceCheck), config.Checks[j]? = some c →
            c.Name = l.check.Name → j = i) →
          l.pc.attempted = true →
          ∃ r, s.checker.GetResultByName l.check.Name = (r, true)
            ∧ r.Name = l.check.Name ∧ r.Type_ = l.check.Type_ ∧ r.Target = l.check.Target)
      ∧ (∀ n : String, (∀ l ∈ s.loops, l.check.Name = n → l.pc.attempted = false) →
          s.checker.GetResultByName n = (CheckResult.zero, false))
      ∧ (∀ n : String, (NewChecker config).GetResultByName n = (CheckResult.zero, false))
      ∧ (∀ (i : Nat) (l : Loop) (env : Env), s.panicked = false → s.loops[i]? = some l →
          l.pc = .start → 0 < l.check.Interval →
          ∃ t, run s [.register i, .newTicker i, .firstCheck i env] = some t
            ∧ t.loops[i]? = some { l with pc := .selecting })
      ∧ ∀ (i : Nat) (l : Loop), s.panicked = false → s.loops[i]? = some l →
          l.pc = .registered → l.check.Interval ≤ 0 →
          ∃ t, step s (.newTicker i) = some t ∧ t.checker.GetResults = s.checker.GetResults
            ∧ ∀ a : Action, step t a = none := by
  have hI := Inv_reachable hs
  refine ⟨hI.checks, ?_, ?_, fun n => rfl, ?_, ?_⟩
  · intro i l hl huniq hatt
    obtain ⟨r, hr⟩ := hI.attempted i l hl hatt
    obtain ⟨hn, i0, l0, hl0, hname, -, hty, htg⟩ := hI.stored _ r hr
    have hi : i0 = i := huniq i0 l0.check (check_of_loop hI hl0) hname
    subst hi
    rw [hl] at hl0
    injection hl0 with hl0
    subst hl0
    exact ⟨r, GetResultByName_eq_of_get hr, hn, hty, htg⟩
  · intro n hnone
    apply GetResultByName_eq_of_get_none
    cases hg : s.checker.results.get n with
    | none => rfl
    | some r =>
      obtain ⟨-, i0, l0, hl0, hname, hatt, -⟩ := hI.stored n r hg
      have := hnone l0 (List.getElem?_mem hl0) hname
      rw [this] at hatt
      cases hatt
  · intro i l env hlive hl hpc hint
    have h1 : (modifyAt (fun l => { l with pc := .registered }) i s.loops)[i]?
        = some { l with pc := .registered } := by
      rw [getElem?_modifyAt, if_pos rfl, hl]; rfl
    have h2 : (modifyAt (fun l => { l with pc := .armed }) i
        (modifyAt (fun l => { l with pc := .registered }) i s.loops))[i]?
        = some { l with pc := .armed } := by
      rw [getElem?_modifyAt, if_pos rfl, h1]; rfl
    have e1 := step_register hlive hl hpc
    have e2 := step_newTicker
      (s := { s with
        checker := { s.checker with cancelFns := s.checker.cancelFns.set l.check.Name i }
        loops := modifyAt (fun l => { l with pc := .registered }) i s.loops })
      hlive h1 rfl hint
    have e3 := step_firstCheck
      (s := { s with
        checker := { s.checker with cancelFns := s.checker.cancelFns.set l.check.Name i }
        loops := modifyAt (fun l => { l with pc := .armed }) i
          (modifyAt (fun l => { l with pc := .registered }) i s.loops) })
      hlive h2 rfl env
    refine ⟨_, (run_cons_of_step _ e1).trans ((run_cons_of_step _ e2).trans
      ((run_cons_of_step _ e3).trans (run_nil _))), ?_⟩
    show (modifyAt (fun l => { l with pc := .selecting }) i
      (modifyAt (fun l => { l with pc := .armed }) i
        (modifyAt (fun l => { l with pc := .registered }) i s.loops)))[i]? = _
    rw [getElem?_modifyAt, if_pos rfl, h2]
    rfl
  · intro i l hlive hl hpc hint
    refine ⟨_, step_newTicker_panic hlive hl hpc hint, rfl, ?_⟩
    intro a
    simp [step]

theorem afterFirstAttempt_reachable : Reachable (boot sampleConfig) afterFirstAttempt :=
  ⟨[.register 0, .newTicker 0, .firstCheck 0 sampleEnv], rfl⟩

theorem first_attempt_recorded_witness :
    ∃ r, afterFirstAttempt.checker.GetResultByName "api" = (r, true)
      ∧ r.Name = "api" ∧ r.Type_ = "http" ∧ r.Target = "http://localhost:8080/health" :=
  (first_attempt_recorded sampleConfig afterFirstAttempt afterFirstAttempt_reachable).2.1
    0 { check := apiCheck, pc := .selecting, done := false } rfl
    (by
      intro j c hj hc
      match j, hj with
      | 0, _ => rfl
      | 1, hj =>
        simp [sampleConfig] at hj
        subst hj
        revert hc
        decide
      | j + 2, hj => simp [sampleConfig] at hj)
    rfl

/-! ## Snapshot -/

theorem GoMap.mem_of_find {V : Type} {k : String} {v : V} {l : List (String × V)}
    (h : GoMap.find k l = some v) : (k, v) ∈ l := by
  induction l with
  | nil => cases h
  | cons e l ih =>
    rw [GoMap.find_cons] at h
    by_cases hk : e.1 = k
    · rw [if_pos hk] at h
      injection h with h
      have : e = (k, v) := Prod.ext hk h
      rw [this]
      exact List.mem_cons_self _ _
    · rw [if_neg hk] at h
      exact List.mem_cons_of_mem _ (ih h)

theorem GoMap.find_of_mem {V : Type} {k : String} {v : V} {l : List (String × V)}
    (hnd : (l.map Prod.fst).Nodup) (h : (k, v) ∈ l) : GoMap.find k l = some v := by
  induction l with
  | nil => cases h
  | cons e l ih =>
    rw [List.map_cons, List.nodup_cons] at hnd
    rw [GoMap.find_cons]
    rcases List.mem_cons.mp h with h | h
    · subst h
      simp
    · have hk : e.1 ≠ k := by
        intro hk
        apply hnd.1
        rw [hk]
        exact List.mem_map.mpr ⟨(k, v), h, rfl⟩
      rw [if_neg hk]
      exact ih hnd.2 h

theorem GoMap.get_of_mem {V : Type} (m : GoMap V) {k : String} {v : V}
    (h : (k, v) ∈ m.entries) : m.get k = some v :=
  GoMap.find_of_mem m.nodup h

theorem GoMap.mem_values_of_get {V : Type} (m : GoMap V) {k : String} {v : V}
    (h : m.get k = some v) : v ∈ m.values :=
  List.mem_map.mpr ⟨(k, v), GoMap.mem_of_find h, rfl⟩

theorem GoMap.mem_keys_iff {V : Type} (m : GoMap V) (k : String) :
    k ∈ m.keys ↔ ∃ v, m.get k = some v := by
  constructor
  · intro h
    obtain ⟨e, he, hk⟩ := List.mem_map.mp h
    refine ⟨e.2, m.get_of_mem ?_⟩
    rw [← hk]
    exact he
  · rintro ⟨v, hv⟩
    exact List.mem_map.mpr ⟨(k, v), GoMap.mem_of_find hv, rfl⟩

theorem GetResultByName_found_iff (c : Checker) (n : String) :
    (c.GetResultByName n).2 = true ↔ n ∈ c.results.keys := by
  rw [GoMap.mem_keys_iff]
  unfold Checker.GetResultByName
  cases c.results.get n <;> simp

/-- C7: in every state reached after `NewChecker` and `Start`, whatever order
the map iteration takes, the sequence returned by `GetResults` has as many
entries as there are stored names, the names of its entries are the stored
names, each once, every entry is what `GetResultByName` returns for its own
`Name`, and every stored result is in the sequence; a name is stored exactly
when `GetResultByName` finds it; on the store of a fresh `NewChecker` the
sequence is empty. -/
theorem GetResults_snapshot (config : Config) (s : System)
    (hs : Reachable (boot config) s) (out : List CheckResult)
    (hout : out.Perm s.checker.GetResults) :
    out.length = s.checker.results.keys.length
      ∧ (out.map CheckResult.Name).Perm s.checker.results.keys
      ∧ (out.map CheckResult.Name).Nodup
      ∧ (∀ r ∈ out, s.checker.GetResultByName r.Name = (r, true))
      ∧ (∀ (n : String) (r : CheckResult), s.checker.GetResultByName n = (r, true) → r ∈ out)
      ∧ (∀ n : String, n ∈ s.checker.results.keys ↔ (s.checker.GetResultByName n).2 = true)
      ∧ (NewChecker config).GetResults = [] := by
  have hI := Inv_reachable hs
  have hkey : ∀ e ∈ s.checker.results.entries, e.2.Name = e.1 := by
    intro e he
    exact (hI.stored e.1 e.2 (s.checker.results.get_of_mem he)).1
  have hnames : s.checker.GetResults.map CheckResult.Name = s.checker.results.keys := by
    simp only [Checker.GetResults, GoMap.values, GoMap.keys, List.map_map]
    exact List.map_congr_left (fun e he => hkey e he)
  have hperm : (out.map CheckResult.Name).Perm s.checker.results.keys := by
    rw [← hnames]
    exact hout.map _
  refine ⟨?_, hperm, ?_, ?_, ?_, fun n => (GetResultByName_found_iff _ n).symm, rfl⟩
  · rw [← hperm.length_eq, List.length_map]
  · exact hperm.nodup_iff.mpr s.checker.results.nodup
  · intro r hr
    have hr1 : r ∈ s.checker.results.values := hout.mem_iff.mp hr
    obtain ⟨e, he, hre⟩ := List.mem_map.mp hr1
    have hg := s.checker.results.get_of_mem he
    rw [← hkey e he, hre] at hg
    exact GetResultByName_eq_of_get hg
  · intro n r hr
    apply hout.mem_iff.mpr
    unfold Checker.GetResultByName at hr
    cases hg : s.checker.results.get n with
    | none => rw [hg] at hr; simp at hr
    | some r0 =>
      rw [hg] at hr
      simp at hr
      subst hr
      exact s.checker.results.mem_values_of_get hg

theorem GetResults_snapshot_witness :
    [performCheckResult apiCheck sampleEnv].length = afterFirstAttempt.checker.results.keys.length
      ∧ afterFirstAttempt.checker.GetResultByName "api"
          = (performCheckResult apiCheck sampleEnv, true) :=
  ⟨(GetResults_snapshot sampleConfig afterFirstAttempt afterFirstAttempt_reachable
      [performCheckResult apiCheck sampleEnv] (List.Perm.refl _)).1,
   (GetResults_snapshot sampleConfig afterFirstAttempt afterFirstAttempt_reachable
      [performCheckResult apiCheck sampleEnv] (List.Perm.refl _)).2.2.2.1 _
      (List.mem_singleton.mpr rfl)⟩

/-! ## Cancellation -/

/-- C8 at the failing input, two checks of distinct names with `Stop` called
right after `Start`: `Stop` finds no cancel function and signals no loop (for
every configuration it leaves all loops as they are), the snapshot taken then
is empty, and afterwards both loops register, store their first attempts and
take ticks, unsignalled and unable to return. Also a loop that `Stop` did
signal still stores an attempt in flight, and may still take a pending tick. -/
theorem store_changes_after_Stop :
    (boot sampleConfig).Stop.loops.map Loop.done = [false, false]
      ∧ (∀ config : Config, (boot config).Stop.loops = (boot config).loops)
      ∧ (boot sampleConfig).Stop.checker.GetResults = []
      ∧ (run (boot sampleConfig).Stop
            [.register 0, .newTicker 0, .firstCheck 0 sampleEnv,
             .register 1, .newTicker 1, .firstCheck 1 sampleEnv, .tick 0 laterEnv]).map
          (fun t => (t.loops.map Loop.done, t.checker.GetResults))
          = some ([false, false],
              [performCheckResult apiCheck laterEnv, performCheckResult dbCheck sampleEnv])
      ∧ run (boot sampleConfig).Stop
            [.register 0, .newTicker 0, .firstCheck 0 sampleEnv, .ctxDone 0] = none
      ∧ (run (boot sampleConfig) [.register 0, .newTicker 0, .stop]).map
          (fun t => (t.loops.map Loop.done, t.checker.GetResults)) = some ([true, false], [])
      ∧ (run (boot sampleConfig)
            [.register 0, .newTicker 0, .stop, .firstCheck 0 sampleEnv]).map
          (fun t => t.checker.GetResults) = some [performCheckResult apiCheck sampleEnv]
      ∧ (run (boot sampleConfig)
            [.register 0, .newTicker 0, .firstCheck 0 sampleEnv, .stop]).map
          (fun t => (t.loops.map Loop.done, t.checker.GetResults))
          = some ([true, false], [performCheckResult apiCheck sampleEnv])
      ∧ (run (boot sampleConfig)
            [.register 0, .newTicker 0, .firstCheck 0 sampleEnv, .stop, .tick 0 laterEnv]).map
          (fun t => t.checker.GetResults) = some [performCheckResult apiCheck laterEnv]
      ∧ performCheckResult apiCheck laterEnv ≠ performCheckResult apiCheck sampleEnv := by
  refine ⟨by decide, fun config => rfl, by decide, by decide, rfl, by decide, by decide,
    by decide, by decide, by decide⟩

end HealthCheck
